import Mathlib

/-
Shallow embedding of the quai-block-difficulty-monitor repository.

The repository holds three near-duplicate Go programs:
  * src/main.go           - watermark loop, MySQL ledger, Prometheus push (per height);
  * src/unnamed/part_001  - same watermark loop and ledger, no metrics;
  * src/unnamed/part_000  - metrics-only variant: no ledger, no watermark gap walk,
                            explicit nil-difficulty guard and signal-based shutdown.

The embedding turns each poll cycle into a pure function from the collaborators'
responses (an environment) to the trace of externally visible effects plus the new
watermark.  Heights and watermarks are Go big.Int values, embedded as Lean Int;
uint64 RPC results are Nat, and the int64(...) conversion at src/main.go:79 and
src/main.go:56 is made explicit.
-/

namespace QuaiMonitor

/-- A block header as the monitor reads it: `WorkObjectHeader().Number().Uint64()`
and `WorkObjectHeader().Difficulty()`.  The difficulty is a Go `*big.Int`, which
may be nil: `none` embeds a nil pointer (src/main.go:90 dereferences it with no
guard; src/unnamed/part_000:98 guards it). -/
structure Header where
  number : Nat
  difficulty : Option Nat
deriving DecidableEq

/-- One externally visible side effect of a cycle: a `HeaderByNumber` call, a
`db.Exec` INSERT attempt (with its success flag), a gauge `Set`, or a `Push` to
the configured gateway address. -/
inductive Effect where
  | headerFetch (height : Int)
  | insert (blockNumber : Nat) (difficulty : Nat) (ok : Bool)
  | gaugeSet (value : Nat)
  | push (gateway : String)
deriving DecidableEq

/-- Go conversion `int64(u)` of a `uint64` value, as used in
`big.NewInt(int64(currentBlockNumber))` (src/main.go:56 and src/main.go:79):
two's-complement reinterpretation, negative for `u >= 2^63`. -/
def int64OfUInt64 (u : Nat) : Int :=
  if u < 2 ^ 63 then (u : Int) else (u : Int) - 2 ^ 64

/-- The collaborators' responses during one cycle of src/main.go:
`tip` is the `client.BlockNumber` result (`none` = RPC error), `headerAt` the
`client.HeaderByNumber` result per height (`none` = RPC error), `insertOk`
whether the `db.Exec` INSERT for a given block number succeeds. -/
structure Env where
  tip : Option Nat
  headerAt : Int → Option Header
  insertOk : Nat → Bool

/-- Body of the per-height loop of src/main.go lines 83-113 at one height `h`:
fetch the header (failure: log and continue with a bare fetch event); dereference
the difficulty pointer (`none` result embeds the nil-pointer panic of
`Difficulty().Uint64()` at line 90, which crashes the process); attempt the
INSERT; on INSERT success, set the gauge and push to `gw` unconditionally. -/
def processHeight (gw : String) (env : Env) (h : Int) : Option (List Effect) :=
  match env.headerAt h with
  | none => some [Effect.headerFetch h]
  | some hd =>
    match hd.difficulty with
    | none => none
    | some d =>
      if env.insertOk hd.number then
        some [Effect.headerFetch h, Effect.insert hd.number d true,
              Effect.gaugeSet d, Effect.push gw]
      else
        some [Effect.headerFetch h, Effect.insert hd.number d false]

/-- The height loop `for height := lastHeight+1; height <= currentHeight; height++`
(src/main.go:82), starting at `h` and running for `fuel` iterations; `none`
propagates a panic. -/
def runHeights (gw : String) (env : Env) (h : Int) : Nat → Option (List Effect)
  | 0 => some []
  | fuel + 1 =>
    match processHeight gw env h with
    | none => none
    | some tr =>
      match runHeights gw env (h + 1) fuel with
      | none => none
      | some rest => some (tr ++ rest)

/-- One tick of the polling loop of src/main.go lines 71-119: query the tip
(failure: log and continue, nothing else happens); convert it with `int64`;
if it exceeds the watermark walk the gap `(w, t]` and then set the watermark to
the tip; otherwise do nothing.  Returns the effect trace and the new watermark,
or `none` when the cycle panicked. -/
def cycle (gw : String) (env : Env) (w : Int) : Option (List Effect × Int) :=
  match env.tip with
  | none => some ([], w)
  | some tnat =>
    let t := int64OfUInt64 tnat
    if w < t then
      match runHeights gw env (w + 1) (t - w).toNat with
      | none => none
      | some tr => some (tr, t)
    else
      some ([], w)

/-- The polling loop over a finite run of ticks, each tick bringing its own
environment; traces concatenate and the watermark threads through. -/
def runCycles (gw : String) : List Env → Int → Option (List Effect × Int)
  | [], w => some ([], w)
  | env :: rest, w =>
    match cycle gw env w with
    | none => none
    | some (tr, w') =>
      match runCycles gw rest w' with
      | none => none
      | some (trs, w'') => some (tr ++ trs, w'')

/-- The heights whose header fetch a trace attempts, in trace order. -/
def attempted (tr : List Effect) : List Int :=
  tr.filterMap fun e =>
    match e with
    | Effect.headerFetch h => some h
    | _ => none

/-- The ascending list `h, h + 1, ..., h + n - 1` of `n` consecutive heights. -/
def gapRange (h : Int) : Nat → List Int
  | 0 => []
  | n + 1 => h :: gapRange (h + 1) n

/-- The gap `(w, t]` as the loop enumerates it. -/
def gapList (w t : Int) : List Int :=
  gapRange (w + 1) (t - w).toNat

/-- Every header the environment can deliver carries a non-nil difficulty
pointer; this is the ChainReader contract `HeaderAt -> {height, difficulty}` of
the spec, and it rules out the nil-pointer panic of src/main.go:90. -/
def headersOk (env : Env) : Prop :=
  ∀ h hd, env.headerAt h = some hd → hd.difficulty ≠ none

/-- Startup watermark of src/main.go lines 48-57: a non-negative `-start` flag
is taken as is; otherwise the tip is queried, a failure is fatal (`none`), and
the `uint64` tip goes through `int64`. -/
def initialWatermark (startHeight : Int) (tipQuery : Option Nat) : Option Int :=
  if 0 ≤ startHeight then some startHeight
  else
    match tipQuery with
    | none => none
    | some tnat => some (int64OfUInt64 tnat)

theorem attempted_append (a b : List Effect) :
    attempted (a ++ b) = attempted a ++ attempted b := by
  simp [attempted, List.filterMap_append]

theorem processHeight_ok (gw : String) (env : Env) (h : Int)
    (hok : ∀ hd, env.headerAt h = some hd → hd.difficulty ≠ none) :
    ∃ tr, processHeight gw env h = some tr ∧ attempted tr = [h] := by
  cases hh : env.headerAt h with
  | none => exact ⟨[Effect.headerFetch h], by simp [processHeight, hh], rfl⟩
  | some hd =>
    cases hd' : hd.difficulty with
    | none => exact absurd hd' (hok hd hh)
    | some d =>
      cases hins : env.insertOk hd.number with
      | true =>
        exact ⟨[Effect.headerFetch h, Effect.insert hd.number d true,
                Effect.gaugeSet d, Effect.push gw],
          by simp [processHeight, hh, hd', hins], rfl⟩
      | false =>
        exact ⟨[Effect.headerFetch h, Effect.insert hd.number d false],
          by simp [processHeight, hh, hd', hins], rfl⟩

theorem gapRange_mem (n : Nat) : ∀ (h x : Int), x ∈ gapRange h n ↔ h ≤ x ∧ x < h + n := by
  induction n with
  | zero => intro h x; simp [gapRange]
  | succ n ih =>
    intro h x
    simp only [gapRange, List.mem_cons, ih (h + 1) x]
    omega

theorem gapRange_pairwise (n : Nat) : ∀ h : Int, (gapRange h n).Pairwise (· < ·) := by
  induction n with
  | zero => intro h; simp [gapRange]
  | succ n ih =>
    intro h
    refine List.Pairwise.cons ?_ (ih (h + 1))
    intro x hx
    have := (gapRange_mem n (h + 1) x).mp hx
    omega

theorem gapRange_chain' (n : Nat) (h : Int) : List.Chain' (· < ·) (gapRange h n) :=
  List.Pairwise.chain' (gapRange_pairwise n h)

theorem gapRange_nodup (n : Nat) (h : Int) : (gapRange h n).Nodup :=
  (gapRange_pairwise n h).imp ne_of_lt

theorem runHeights_ok (gw : String) (env : Env) (hok : headersOk env) :
    ∀ (fuel : Nat) (h : Int),
      ∃ tr, runHeights gw env h fuel = some tr ∧ attempted tr = gapRange h fuel := by
  intro fuel
  induction fuel with
  | zero => intro h; exact ⟨[], rfl, rfl⟩
  | succ n ih =>
    intro h
    obtain ⟨tr₀, h₀, ha₀⟩ := processHeight_ok gw env h (fun hd hh => hok h hd hh)
    obtain ⟨tr₁, h₁, ha₁⟩ := ih (h + 1)
    refine ⟨tr₀ ++ tr₁, ?_, ?_⟩
    · simp [runHeights, h₀, h₁]
    · rw [attempted_append, ha₀, ha₁]; rfl

theorem cycle_advances (gw : String) (env : Env) (w : Int) (tnat : Nat)
    (htip : env.tip = some tnat) (hgt : w < int64OfUInt64 tnat) (hok : headersOk env) :
    ∃ tr, cycle gw env w = some (tr, int64OfUInt64 tnat) ∧
      attempted tr = gapList w (int64OfUInt64 tnat) := by
  obtain ⟨tr, htr, ha⟩ := runHeights_ok gw env hok (int64OfUInt64 tnat - w).toNat (w + 1)
  exact ⟨tr, by simp [cycle, htip, hgt, htr], ha⟩

theorem gapList_mem (w t x : Int) (hwt : w < t) :
    x ∈ gapList w t ↔ w < x ∧ x ≤ t := by
  rw [gapList, gapRange_mem]
  omega

theorem cycle_mono (gw : String) (env : Env) (w : Int) (p : List Effect × Int)
    (hc : cycle gw env w = some p) : w ≤ p.2 := by
  unfold cycle at hc
  cases htip : env.tip with
  | none => rw [htip] at hc; cases hc; exact le_refl w
  | some tnat =>
    rw [htip] at hc
    simp only at hc
    by_cases hlt : w < int64OfUInt64 tnat
    · rw [if_pos hlt] at hc
      cases hrun : runHeights gw env (w + 1) (int64OfUInt64 tnat - w).toNat with
      | none => rw [hrun] at hc; cases hc
      | some tr => rw [hrun] at hc; cases hc; exact le_of_lt hlt
    · rw [if_neg hlt] at hc; cases hc; exact le_refl w

theorem runCycles_mono (gw : String) :
    ∀ (envs : List Env) (w : Int) (p : List Effect × Int),
      runCycles gw envs w = some p → w ≤ p.2 := by
  intro envs
  induction envs with
  | nil => intro w p hc; cases hc; exact le_refl w
  | cons env rest ih =>
    intro w p hc
    unfold runCycles at hc
    cases h₁ : cycle gw env w with
    | none => rw [h₁] at hc; cases hc
    | some q =>
      rw [h₁] at hc
      cases h₂ : runCycles gw rest q.2 with
      | none => simp [h₂] at hc
      | some r =>
        simp only [h₂] at hc
        cases hc
        exact le_trans (cycle_mono gw env w q h₁) (ih q.2 r h₂)

theorem runHeights_mem (gw : String) (env : Env) (e : Effect) :
    ∀ (fuel : Nat) (start h : Int) (tr trh : List Effect),
      runHeights gw env start fuel = some tr →
      start ≤ h → h < start + fuel →
      processHeight gw env h = some trh → e ∈ trh → e ∈ tr := by
  intro fuel
  induction fuel with
  | zero => intro start h tr trh _ hle hlt; omega
  | succ n ih =>
    intro start h tr trh hrun hle hlt hph he
    unfold runHeights at hrun
    cases h₀ : processHeight gw env start with
    | none => rw [h₀] at hrun; cases hrun
    | some tr₀ =>
      rw [h₀] at hrun
      cases h₁ : runHeights gw env (start + 1) n with
      | none => rw [h₁] at hrun; cases hrun
      | some tr₁ =>
        rw [h₁] at hrun
        cases hrun
        rcases eq_or_lt_of_le hle with heq | hlt'
        · subst heq
          rw [h₀] at hph
          cases hph
          exact List.mem_append_left _ he
        · exact List.mem_append_right _
            (ih (start + 1) h tr₁ trh h₁ (by omega) (by omega) hph he)

/-- C1.  Gap completeness: when the observed tip `int64OfUInt64 tnat` exceeds the
watermark `w` and the environment honours the ChainReader contract (no nil
difficulty pointer), the cycle attempts exactly the heights `w+1, ..., t` —
the attempted list is the gap, strictly increasing, without duplicates, and a
height is attempted iff it lies in `(w, t]`. -/
theorem c1_gap_completeness (gw : String) (env : Env) (w : Int) (tnat : Nat)
    (htip : env.tip = some tnat) (hgt : w < int64OfUInt64 tnat) (hok : headersOk env) :
    ∃ tr, cycle gw env w = some (tr, int64OfUInt64 tnat) ∧
      attempted tr = gapList w (int64OfUInt64 tnat) ∧
      List.Chain' (· < ·) (attempted tr) ∧
      (attempted tr).Nodup ∧
      (∀ x : Int, x ∈ attempted tr ↔ w < x ∧ x ≤ int64OfUInt64 tnat) := by
  obtain ⟨tr, hc, ha⟩ := cycle_advances gw env w tnat htip hgt hok
  refine ⟨tr, hc, ha, ?_, ?_, ?_⟩ <;> rw [ha]
  · exact gapRange_chain' _ _
  · exact gapRange_nodup _ _
  · exact fun x => gapList_mem w _ x hgt

/-- Environment with tip 103 and every header present with difficulty 7. -/
def envC1 : Env :=
  { tip := some 103
    headerAt := fun h => some { number := h.toNat, difficulty := some 7 }
    insertOk := fun _ => true }

/-- C1, instantiated: watermark 100, tip 103. -/
theorem c1_gap_completeness_witness :
    ∃ tr, cycle "" envC1 100 = some (tr, int64OfUInt64 103) ∧
      attempted tr = gapList 100 (int64OfUInt64 103) ∧
      List.Chain' (· < ·) (attempted tr) ∧
      (attempted tr).Nodup ∧
      (∀ x : Int, x ∈ attempted tr ↔ 100 < x ∧ x ≤ int64OfUInt64 103) :=
  c1_gap_completeness "" envC1 100 103 rfl (by norm_num [int64OfUInt64])
    (by intro h hd hh; simp only [envC1] at hh; cases hh; simp)

/-- C2.  Forward-only watermark: any completed cycle leaves the watermark at
least where it was; a cycle whose observed tip exceeds the watermark ends with
the watermark equal to that tip even when every per-height header fetch fails;
and over any finite run of cycles the watermark never decreases. -/
theorem c2_forward_only_watermark (gw : String) (env : Env) (envs : List Env)
    (w : Int) (tnat : Nat) (htip : env.tip = some tnat)
    (hgt : w < int64OfUInt64 tnat) (hfail : ∀ h, env.headerAt h = none) :
    (∀ env' p, cycle gw env' w = some p → w ≤ p.2) ∧
    (∃ tr, cycle gw env w = some (tr, int64OfUInt64 tnat)) ∧
    (∀ p, runCycles gw envs w = some p → w ≤ p.2) := by
  refine ⟨fun env' p hp => cycle_mono gw env' w p hp, ?_,
    fun p hp => runCycles_mono gw envs w p hp⟩
  obtain ⟨tr, hc, _⟩ := cycle_advances gw env w tnat htip hgt
    (by intro h hd hh; rw [hfail h] at hh; cases hh)
  exact ⟨tr, hc⟩

/-- Environment with tip 103 where every header fetch fails. -/
def envC2 : Env :=
  { tip := some 103, headerAt := fun _ => none, insertOk := fun _ => true }

/-- C2, instantiated: watermark 100, tip 103, all fetches failing. -/
theorem c2_forward_only_watermark_witness :
    (∀ env' p, cycle "" env' 100 = some p → 100 ≤ p.2) ∧
    (∃ tr, cycle "" envC2 100 = some (tr, int64OfUInt64 103)) ∧
    (∀ p, runCycles "" [] 100 = some p → 100 ≤ p.2) :=
  c2_forward_only_watermark "" envC2 [] 100 103 rfl (by norm_num [int64OfUInt64])
    (fun _ => rfl)

/-- C4.  Tip-query failure skips the tick atomically: when `client.BlockNumber`
fails, the cycle produces no effect at all and leaves the watermark unchanged,
and the run continues with the next tick exactly as if this tick had not
happened (so the next tick queries the tip again). -/
theorem c4_tip_failure_skips_tick (gw : String) (env : Env) (w : Int)
    (rest : List Env) (htip : env.tip = none) :
    cycle gw env w = some ([], w) ∧
    runCycles gw (env :: rest) w = runCycles gw rest w := by
  have hc : cycle gw env w = some ([], w) := by simp [cycle, htip]
  refine ⟨hc, ?_⟩
  cases hr : runCycles gw rest w with
  | none => simp [runCycles, hc, hr]
  | some p => simp [runCycles, hc, hr]

/-- Environment whose tip query fails. -/
def envC4 : Env :=
  { tip := none, headerAt := fun _ => none, insertOk := fun _ => true }

/-- C4, instantiated: watermark 100, failing tip query, one later tick. -/
theorem c4_tip_failure_skips_tick_witness :
    cycle "" envC4 100 = some ([], 100) ∧
    runCycles "" (envC4 :: [envC2]) 100 = runCycles "" [envC2] 100 :=
  c4_tip_failure_skips_tick "" envC4 100 [envC2] rfl

/-- C5.  No-op on stale tip: when the observed tip does not exceed the
watermark, the cycle emits no header fetch, no INSERT, no gauge set and no
push, and the watermark is unchanged. -/
theorem c5_noop_on_stale_tip (gw : String) (env : Env) (w : Int) (tnat : Nat)
    (htip : env.tip = some tnat) (hle : int64OfUInt64 tnat ≤ w) :
    cycle gw env w = some ([], w) := by
  simp [cycle, htip, not_lt.mpr hle]

/-- Environment with tip 100 and all collaborators willing. -/
def envC5 : Env :=
  { tip := some 100
    headerAt := fun h => some { number := h.toNat, difficulty := some 7 }
    insertOk := fun _ => true }

/-- C5, instantiated: watermark 100, observed tip 100. -/
theorem c5_noop_on_stale_tip_witness : cycle "" envC5 100 = some ([], 100) :=
  c5_noop_on_stale_tip "" envC5 100 100 rfl (by norm_num [int64OfUInt64])

/-- C10.  Heights reported as uint64 go through the signed `int64` cast of
src/main.go:79 and src/main.go:56: the internal value (and the tip-derived
initial watermark) equals the reported tip exactly when it is below `2^63`,
and for a reported tip at or above `2^63` the internal value is negative and
differs from it. -/
theorem c10_int64_cast (tnat : Nat) (hT : tnat < 2 ^ 64) :
    (int64OfUInt64 tnat = (tnat : Int) ↔ tnat < 2 ^ 63) ∧
    (initialWatermark (-1) (some tnat) = some ((tnat : Int)) ↔ tnat < 2 ^ 63) ∧
    (2 ^ 63 ≤ tnat → int64OfUInt64 tnat < 0 ∧ int64OfUInt64 tnat ≠ (tnat : Int)) := by
  have hp63 : (2 : Int) ^ 63 = 9223372036854775808 := by norm_num
  have hp64 : (2 : Int) ^ 64 = 18446744073709551616 := by norm_num
  have hn63 : (2 : Nat) ^ 63 = 9223372036854775808 := by norm_num
  have hn64 : (2 : Nat) ^ 64 = 18446744073709551616 := by norm_num
  have h1 : int64OfUInt64 tnat = (tnat : Int) ↔ tnat < 2 ^ 63 := by
    unfold int64OfUInt64
    split_ifs with h
    · exact iff_of_true rfl h
    · rw [hn63] at h ⊢
      rw [hp64]
      constructor
      · intro heq; omega
      · intro hlt; omega
  refine ⟨h1, ?_, ?_⟩
  · rw [initialWatermark]
    rw [if_neg (by norm_num)]
    simpa using h1
  · intro hge
    rw [hn63] at hge
    rw [hn64] at hT
    unfold int64OfUInt64
    rw [if_neg (by rw [hn63]; omega), hp64]
    constructor
    · omega
    · intro heq; omega

/-- C10, instantiated at the boundary value `2^63`. -/
theorem c10_int64_cast_witness :
    (int64OfUInt64 (2 ^ 63) = ((2 ^ 63 : Nat) : Int) ↔ (2 ^ 63 : Nat) < 2 ^ 63) ∧
    (initialWatermark (-1) (some (2 ^ 63)) = some (((2 ^ 63 : Nat) : Int)) ↔
      (2 ^ 63 : Nat) < 2 ^ 63) ∧
    ((2 : Nat) ^ 63 ≤ 2 ^ 63 → int64OfUInt64 (2 ^ 63) < 0 ∧
      int64OfUInt64 (2 ^ 63) ≠ ((2 ^ 63 : Nat) : Int)) :=
  c10_int64_cast (2 ^ 63) (by norm_num)

/-- The collaborators' responses during one tick of src/unnamed/part_000: there
is no ledger, the tip is converted with `SetUint64` (src/unnamed/part_000:86, no
sign reinterpretation) and only the tip's own header is fetched. -/
structure Env000 where
  tip : Option Nat
  headerAt : Nat → Option Header

/-- One tick of the metrics-only variant, src/unnamed/part_000 lines 73-120:
query the tip (failure: log and continue); fetch the tip's header (failure: log
and continue); guard a nil difficulty pointer explicitly (lines 98-102: log and
continue); otherwise set the gauge and push. -/
def part000Cycle (gw : String) (env : Env000) : List Effect :=
  match env.tip with
  | none => []
  | some tnat =>
    match env.headerAt tnat with
    | none => [Effect.headerFetch (tnat : Int)]
    | some hd =>
      match hd.difficulty with
      | none => [Effect.headerFetch (tnat : Int)]
      | some d =>
        [Effect.headerFetch (tnat : Int), Effect.gaugeSet d, Effect.push gw]

/-- An event the long-running loop can face: a timer tick carrying that tick's
collaborator responses, or an interrupt/termination signal. -/
inductive Sig (α : Type) where
  | tick (env : α)
  | quit

/-- Outcome of the polling loop of src/main.go over a finite prefix of events:
still running (events exhausted), crashed by a panic, returned from the loop
normally, or killed by a signal's default disposition.  src/main.go installs no
signal handler (`for range ticker.C`, line 71), so an arriving SIGINT/SIGTERM
takes Go's default action: the process dies at once, abnormally. -/
inductive MainOutcome where
  | running (tr : List Effect) (w : Int)
  | crashed (tr : List Effect)
  | finished (tr : List Effect) (w : Int)
  | killed (tr : List Effect) (w : Int)
deriving DecidableEq

/-- The polling loop of src/main.go lines 71-120 over a finite list of events:
ticks run `cycle`; a signal is never selected on, so it ends the process by the
runtime's default disposition (`killed`), and no event path returns from the
loop (`finished` is unreachable). -/
def mainGoRun (gw : String) (w : Int) : List (Sig Env) → MainOutcome
  | [] => MainOutcome.running [] w
  | Sig.quit :: _ => MainOutcome.killed [] w
  | Sig.tick env :: rest =>
    match cycle gw env w with
    | none => MainOutcome.crashed []
    | some (tr, w') =>
      match mainGoRun gw w' rest with
      | MainOutcome.running trs w'' => MainOutcome.running (tr ++ trs) w''
      | MainOutcome.crashed trs => MainOutcome.crashed (tr ++ trs)
      | MainOutcome.finished trs w'' => MainOutcome.finished (tr ++ trs) w''
      | MainOutcome.killed trs w'' => MainOutcome.killed (tr ++ trs) w''

/-- Outcome of the select loop of src/unnamed/part_000: still running, or
returned normally after the quit channel fired. -/
inductive P0Outcome where
  | running (tr : List Effect)
  | terminated (tr : List Effect)
deriving DecidableEq

/-- The select loop of src/unnamed/part_000 lines 71-126: a tick runs one full
cycle; the quit signal (lines 122-124) makes the loop return, never mid-cycle,
and later events are not looked at. -/
def part000Run (gw : String) : List (Sig Env000) → P0Outcome
  | [] => P0Outcome.running []
  | Sig.quit :: _ => P0Outcome.terminated []
  | Sig.tick env :: rest =>
    match part000Run gw rest with
    | P0Outcome.running trs => P0Outcome.running (part000Cycle gw env ++ trs)
    | P0Outcome.terminated trs =>
      P0Outcome.terminated (part000Cycle gw env ++ trs)

/-- C3.  Per-height isolation: a failure at height `h` inside a multi-height
gap — header fetch failing, or the INSERT for its block number failing — does
not stop the cycle: every height of the gap, the later ones `h+1..t` included,
is still attempted exactly once, and the watermark still advances to the tip. -/
theorem c3_per_height_isolation (gw : String) (env : Env) (w h : Int) (tnat : Nat)
    (htip : env.tip = some tnat) (hmulti : w + 1 < int64OfUInt64 tnat)
    (hh : w < h ∧ h ≤ int64OfUInt64 tnat)
    (hfailure : env.headerAt h = none ∨
      ∃ hd, env.headerAt h = some hd ∧ env.insertOk hd.number = false)
    (hok : headersOk env) :
    ∃ tr, cycle gw env w = some (tr, int64OfUInt64 tnat) ∧
      (∀ x : Int, h < x → x ≤ int64OfUInt64 tnat → x ∈ attempted tr) ∧
      attempted tr = gapList w (int64OfUInt64 tnat) ∧
      (attempted tr).Nodup := by
  have hgt : w < int64OfUInt64 tnat := by omega
  obtain ⟨tr, hc, ha⟩ := cycle_advances gw env w tnat htip hgt hok
  refine ⟨tr, hc, ?_, ha, by rw [ha]; exact gapRange_nodup _ _⟩
  intro x hx1 hx2
  rw [ha]
  exact (gapList_mem w _ x hgt).mpr ⟨by omega, hx2⟩

/-- Environment with tip 103 where only the fetch of height 101 fails. -/
def envC3 : Env :=
  { tip := some 103
    headerAt := fun h =>
      if h = 101 then none else some { number := h.toNat, difficulty := some 9 }
    insertOk := fun _ => true }

/-- C3, instantiated: watermark 100, tip 103, fetch of height 101 failing. -/
theorem c3_per_height_isolation_witness :
    ∃ tr, cycle "" envC3 100 = some (tr, int64OfUInt64 103) ∧
      (∀ x : Int, 101 < x → x ≤ int64OfUInt64 103 → x ∈ attempted tr) ∧
      attempted tr = gapList 100 (int64OfUInt64 103) ∧
      (attempted tr).Nodup :=
  c3_per_height_isolation "" envC3 100 101 103 rfl
    (by norm_num [int64OfUInt64]) (by norm_num [int64OfUInt64])
    (Or.inl (by norm_num [envC3]))
    (by
      intro a hd hhp
      simp only [envC3] at hhp
      split at hhp
      · cases hhp
      · cases hhp; simp)

/-- Environment seen by src/main.go with tip 101 and a header at 101 whose
difficulty pointer is nil. -/
def envC6 : Env :=
  { tip := some 101
    headerAt := fun _ => some { number := 101, difficulty := none }
    insertOk := fun _ => true }

/-- The same situation for the metrics-only variant. -/
def env000C6 : Env000 :=
  { tip := some 101, headerAt := fun _ => some { number := 101, difficulty := none } }

/-- C6, evaluated at the failing input: at watermark 100 and tip 101 with a
nil difficulty pointer in the header, the cycle of src/main.go panics (the
unguarded `Difficulty().Uint64()` of line 90), so the cycle yields no outcome
at all — whereas the guarded variant src/unnamed/part_000 logs the condition
and continues, its tick ending after the bare header fetch. -/
theorem c6_nil_difficulty_crash :
    cycle "" envC6 100 = none ∧
    part000Cycle "" env000C6 = [Effect.headerFetch 101] := by decide

/-- C7 counterexample: src/main.go's loop, facing an interrupt signal as its
first event, is killed by the default signal disposition; it does not return
from the loop normally, refuting graceful shutdown for that program. -/
theorem c7_counterexample :
    mainGoRun "" 100 [Sig.quit] = MainOutcome.killed [] 100 ∧
    MainOutcome.killed ([] : List Effect) 100 ≠
      MainOutcome.finished ([] : List Effect) 100 := by decide

/-- C7 as amended: only the metrics-only variant src/unnamed/part_000 installs
a signal handler; its select loop runs every cycle ticked before the signal to
completion, in order, then returns normally on the signal, looking at nothing
after it. -/
theorem c7_graceful_shutdown_part000 (gw : String) (pre : List Env000)
    (rest : List (Sig Env000)) :
    part000Run gw (pre.map Sig.tick ++ Sig.quit :: rest) =
      P0Outcome.terminated (pre.map (part000Cycle gw)).flatten := by
  induction pre with
  | nil => rfl
  | cons env pre ih => simp [part000Run, ih]

/-- Environment with tip 101, a good header at every height (number 101,
difficulty 7) and a willing ledger. -/
def envC8 : Env :=
  { tip := some 101
    headerAt := fun _ => some { number := 101, difficulty := some 7 }
    insertOk := fun _ => true }

/-- C8 counterexample: with no push-gateway address configured (the empty
string), a cycle at watermark 100 and tip 101 still sets the gauge and still
performs a push — metrics export is not skipped. -/
theorem c8_counterexample :
    cycle "" envC8 100 =
      some ([Effect.headerFetch 101, Effect.insert 101 7 true,
             Effect.gaugeSet 7, Effect.push ""], 101) ∧
    Effect.gaugeSet 7 ∈ ([Effect.headerFetch 101, Effect.insert 101 7 true,
             Effect.gaugeSet 7, Effect.push ""] : List Effect) ∧
    Effect.push "" ∈ ([Effect.headerFetch 101, Effect.insert 101 7 true,
             Effect.gaugeSet 7, Effect.push ""] : List Effect) := by decide

/-- C8 as amended: src/main.go sets the gauge and pushes after every
successful INSERT unconditionally, whatever the configured gateway address —
the empty (absent) address included; only the push's own failure is then
logged. -/
theorem c8_unconditional_push (gw : String) (env : Env) (w h : Int)
    (tnat n d : Nat) (htip : env.tip = some tnat)
    (hgt : w < int64OfUInt64 tnat) (hrange : w < h ∧ h ≤ int64OfUInt64 tnat)
    (hok : headersOk env)
    (hhd : env.headerAt h = some { number := n, difficulty := some d })
    (hins : env.insertOk n = true) :
    ∃ tr, cycle gw env w = some (tr, int64OfUInt64 tnat) ∧
      Effect.gaugeSet d ∈ tr ∧ Effect.push gw ∈ tr := by
  obtain ⟨tr, htr, ha⟩ :=
    runHeights_ok gw env hok (int64OfUInt64 tnat - w).toNat (w + 1)
  have hph : processHeight gw env h =
      some [Effect.headerFetch h, Effect.insert n d true,
            Effect.gaugeSet d, Effect.push gw] := by
    simp [processHeight, hhd, hins]
  have hc : cycle gw env w = some (tr, int64OfUInt64 tnat) := by
    simp [cycle, htip, hgt, htr]
  have hmem : ∀ e : Effect,
      e ∈ [Effect.headerFetch h, Effect.insert n d true,
           Effect.gaugeSet d, Effect.push gw] → e ∈ tr := by
    intro e he
    exact runHeights_mem gw env e (int64OfUInt64 tnat - w).toNat (w + 1) h tr _
      htr (by omega) (by omega) hph he
  exact ⟨tr, hc, hmem _ (by simp), hmem _ (by simp)⟩

/-- C8 amended, instantiated with the empty gateway address: the push is
performed against the empty address. -/
theorem c8_unconditional_push_witness :
    ∃ tr, cycle "" envC8 100 = some (tr, int64OfUInt64 101) ∧
      Effect.gaugeSet 7 ∈ tr ∧ Effect.push "" ∈ tr :=
  c8_unconditional_push "" envC8 100 101 101 101 7 rfl
    (by norm_num [int64OfUInt64]) (by norm_num [int64OfUInt64])
    (by intro a hd hhp; simp only [envC8] at hhp; cases hhp; simp)
    rfl rfl

/-- C9 counterexample: with the start flag absent (`-1`) and the launch tip
reported as `2^63`, the initial watermark is `-(2^63)`, not the tip: the claim
"the initial watermark equals the chain's current tip" fails there. -/
theorem c9_counterexample :
    initialWatermark (-1) (some (2 ^ 63)) = some (-(2 ^ 63)) ∧
    initialWatermark (-1) (some (2 ^ 63)) ≠ some (((2 ^ 63 : Nat) : Int)) := by
  norm_num [initialWatermark, int64OfUInt64]

/-- C9 as amended: a non-negative start flag is the initial watermark as given;
with the flag absent or negative the initial watermark is the launch tip as
long as the reported tip is below `2^63` (it goes through the signed `int64`
cast), and a failing launch tip query is fatal. -/
theorem c9_initial_watermark (s : Int) (q : Option Nat) (tnat : Nat)
    (hs : s < 0) (ht : tnat < 2 ^ 63) :
    (∀ s' : Int, 0 ≤ s' → initialWatermark s' q = some s') ∧
    initialWatermark s (some tnat) = some ((tnat : Int)) ∧
    initialWatermark s none = none := by
  refine ⟨fun s' hs' => by simp [initialWatermark, hs'], ?_, ?_⟩
  · rw [initialWatermark, if_neg (by omega)]
    show some (int64OfUInt64 tnat) = some ((tnat : Int))
    rw [int64OfUInt64, if_pos ht]
  · rw [initialWatermark, if_neg (by omega)]

/-- C9 amended, instantiated: start flag -1, launch tip 103. -/
theorem c9_initial_watermark_witness :
    (∀ s' : Int, 0 ≤ s' → initialWatermark s' none = some s') ∧
    initialWatermark (-1) (some 103) = some ((103 : Nat) : Int) ∧
    initialWatermark (-1) none = none :=
  c9_initial_watermark (-1) none 103 (by norm_num) (by norm_num)

end QuaiMonitor
